import Mathlib

/-!
Shallow embedding of the django-contact repository (models.py, serializers.py,
views.py, permissions.py) and proofs about the claims of its specification.

Tables are lists of rows; surrogate keys are natural numbers.  Each operation
of the HTTP layer is embedded as a function from a database state (plus the
request data) to either an error or a new database state, mirroring the
serializer/view code path it is named after.  Operations decorated with
transaction.atomic are embedded so that an error leaves the state unchanged.
-/

namespace DjangoContact

/-- ContactGroup.role choices (models.py: ROLE_ADMIN, ROLE_MEMBER). -/
inductive Role
  | admin
  | member
deriving DecidableEq, Repr

/-- Phone.phone_type choices (models.py: TYPE_CELLPHONE, TYPE_TELEPHONE, TYPE_TELEFAX). -/
inductive PhoneType
  | cellphone
  | telephone
  | telefax
deriving DecidableEq, Repr

/-- A row of the Contact table (models.py Contact).  userId is the
OneToOneField to the auth user. -/
structure ContactRow where
  id : Nat
  userId : Nat
  nickname : String
  company : String
  title : String
  address : String
deriving DecidableEq, Repr

/-- A row of the ContactMembership table (models.py ContactMembership). -/
structure ContactMembershipRow where
  owner : Nat
  contact : Nat
  starred : Bool
deriving DecidableEq, Repr

/-- A row of the Phone table (models.py Phone). -/
structure PhoneRow where
  id : Nat
  phone_number : String
  phone_type : PhoneType
deriving DecidableEq, Repr

/-- A row of the ContactPhone table (models.py ContactPhone). -/
structure ContactPhoneRow where
  contact : Nat
  phone : Nat
  is_primary : Bool
deriving DecidableEq, Repr

/-- A row of the Group table (models.py Group). -/
structure GroupRow where
  id : Nat
  name : String
  description : String
  created_by : Nat
  updated_by : Option Nat
deriving DecidableEq, Repr

/-- A row of the ContactGroup table (models.py ContactGroup). -/
structure ContactGroupRow where
  contact : Nat
  group : Nat
  role : Role
  inviter : Nat
  joined_at : Nat
deriving DecidableEq, Repr

/-- The relational store: one list per table, plus the auth user table
(only its primary keys matter here). -/
structure DB where
  users : List Nat
  contacts : List ContactRow
  memberships : List ContactMembershipRow
  phones : List PhoneRow
  contactPhones : List ContactPhoneRow
  groups : List GroupRow
  contactGroups : List ContactGroupRow
deriving DecidableEq, Repr

def DB.empty : DB := ⟨[], [], [], [], [], [], []⟩

/-! ### Phone component (models.py ContactPhone, serializers.py PhoneDeserializer) -/

/-- models.py ContactPhone.\_has\_primary\_phone: True when any ContactPhone row of
this contact has is_primary = True.  Note that the query does not exclude the
row being modified. -/
def has_primary_phone (db : DB) (contactId : Nat) : Bool :=
  db.contactPhones.any (fun r => r.contact == contactId && r.is_primary)

/-- models.py ContactPhone.clean: reject when the candidate is primary and the
contact already has a primary phone row. -/
def contactPhoneClean (db : DB) (contactId : Nat) (is_primary : Bool) :
    Except String Unit :=
  if is_primary && has_primary_phone db contactId then
    Except.error ("Contact ID " ++ toString contactId ++ " has primary phone already.")
  else
    Except.ok ()

/-- The validated payload of PhoneDeserializer: phone_number and phone_type are
required, is_primary is declared with required=False, hence optional. -/
structure PhonePayload where
  phone_number : String
  phone_type : PhoneType
  is_primary : Option Bool
deriving DecidableEq, Repr

/-- Errors the PhoneDeserializer.save path can produce: the unhandled KeyError
from popping a missing is_primary, or a DRF ValidationError. -/
inductive PhoneSaveErr
  | keyError
  | validation (msg : String)
deriving DecidableEq, Repr

/-- Next free Phone primary key. -/
def freshPhoneId (db : DB) : Nat :=
  (db.phones.foldr (fun p m => max p.id m) 0) + 1

/-- ModelSerializer super().save(): update the Phone row when an instance is
bound, insert a new row otherwise.  Returns the saved phone id. -/
def phoneModelSave (db : DB) (instancePhone : Option Nat) (p : PhonePayload) :
    DB × Nat :=
  match instancePhone with
  | some pid =>
      ({ db with
          phones := db.phones.map (fun r =>
            if r.id == pid then
              { r with phone_number := p.phone_number, phone_type := p.phone_type }
            else r) },
       pid)
  | none =>
      let pid := freshPhoneId db
      ({ db with
          phones := db.phones ++ [⟨pid, p.phone_number, p.phone_type⟩] },
       pid)

/-- The effect of the update branch of update_or_create on one row. -/
def flipCP (c p : Nat) (b : Bool) (r : ContactPhoneRow) : ContactPhoneRow :=
  if r.contact == c && r.phone == p then { r with is_primary := b } else r

/-- ContactPhone.objects.update_or_create(contact=c, phone=p,
defaults is_primary): update the matching row when one exists, insert
otherwise. -/
def updateOrCreateCP (rows : List ContactPhoneRow) (c p : Nat) (prim : Bool) :
    List ContactPhoneRow :=
  if rows.any (fun r => r.contact == c && r.phone == p) then
    rows.map (flipCP c p prim)
  else
    rows ++ [⟨c, p, prim⟩]

/-- serializers.py PhoneDeserializer.save (transaction.atomic): pop is_primary
(KeyError when absent), save the Phone row, run `_validate_contact_phone`
(ContactPhone.clean on a fresh unsaved row), then upsert the ContactPhone row.
An error rolls the transaction back, so the caller keeps the old state. -/
def phoneSave (db : DB) (contactId : Nat) (instancePhone : Option Nat)
    (payload : PhonePayload) : Except PhoneSaveErr (DB × Nat) :=
  match payload.is_primary with
  | none => Except.error PhoneSaveErr.keyError
  | some is_primary =>
      let saved := phoneModelSave db instancePhone payload
      match contactPhoneClean saved.1 contactId is_primary with
      | Except.error msg => Except.error (PhoneSaveErr.validation msg)
      | Except.ok _ =>
          Except.ok
            ({ saved.1 with
                contactPhones :=
                  updateOrCreateCP saved.1.contactPhones contactId saved.2 is_primary },
             saved.2)

/-- views.py ContactPhoneNumberDetailView (DestroyAPIView): deleting a Phone
cascades to every ContactPhone row referencing it. -/
def phoneDelete (db : DB) (phoneId : Nat) : DB :=
  { db with
      phones := db.phones.filter (fun r => !(r.id == phoneId)),
      contactPhones := db.contactPhones.filter (fun r => !(r.phone == phoneId)) }

/-- One phone-association operation of the HTTP surface. -/
inductive PhoneOp
  | create (contactId : Nat) (payload : PhonePayload)
  | update (contactId : Nat) (phoneId : Nat) (payload : PhonePayload)
  | delete (phoneId : Nat)
deriving DecidableEq, Repr

/-- Run one operation; a rejected request leaves the state unchanged
(the save path is wrapped in transaction.atomic). -/
def applyPhoneOp (db : DB) (op : PhoneOp) : DB :=
  match op with
  | PhoneOp.create c payload =>
      match phoneSave db c none payload with
      | Except.ok res => res.1
      | Except.error _ => db
  | PhoneOp.update c pid payload =>
      match phoneSave db c (some pid) payload with
      | Except.ok res => res.1
      | Except.error _ => db
  | PhoneOp.delete pid => phoneDelete db pid

def applyPhoneOps (db : DB) (ops : List PhoneOp) : DB :=
  ops.foldl applyPhoneOp db

/-- Number of primary phone-association rows of a contact. -/
def primaryCount (rows : List ContactPhoneRow) (c : Nat) : Nat :=
  (rows.filter (fun r => r.contact == c && r.is_primary)).length

/-- Number of ContactPhone rows for a given (contact, phone) key. -/
def keyCount (rows : List ContactPhoneRow) (c p : Nat) : Nat :=
  (rows.filter (fun r => r.contact == c && r.phone == p)).length

/-- Each (contact, phone) pair occurs in at most one ContactPhone row
(the unique_together constraint of models.py ContactPhone). -/
def cpPairsNodup (rows : List ContactPhoneRow) : Prop :=
  (rows.map (fun r => (r.contact, r.phone))).Nodup

/-- Invariant carried through phone operations: the unique_together key
constraint together with the at-most-one-primary property. -/
def PhoneInv (db : DB) : Prop :=
  cpPairsNodup db.contactPhones ∧ ∀ c, primaryCount db.contactPhones c ≤ 1

/-! ### Shared error type of the embedded HTTP layer -/

inductive ApiErr
  | notFound
  | validation (msg : String)
deriving DecidableEq, Repr

/-! ### Group queryset (models.py GroupQuerySet.accessible_for) -/

/-- models.py GroupQuerySet.accessible_for: groups created by the contact or
where the contact has a ContactGroup row, with SQL DISTINCT modelled by
List.dedup on the resulting rows. -/
def accessible_for (db : DB) (c : Nat) : List GroupRow :=
  (db.groups.filter (fun g =>
    g.created_by == c ||
      db.contactGroups.any (fun r => r.contact == c && r.group == g.id))).dedup

/-! ### Group creation / update (serializers.py GroupDeserializer.save) -/

inductive GroupErr
  | noContactList
  | storeFailure
deriving DecidableEq, Repr

/-- Django m2m add through an intermediate model: the row is inserted only
when no row for the (contact, group) pair exists; an existing row is left
untouched (through_defaults are ignored then). -/
def cgAdd (rows : List ContactGroupRow) (c g : Nat) (role : Role)
    (inviter : Nat) (t : Nat) : List ContactGroupRow :=
  if rows.any (fun r => r.contact == c && r.group == g) then rows
  else rows ++ [⟨c, g, role, inviter, t⟩]

/-- Each (contact, group) pair occurs in at most one ContactGroup row
(the unique_together constraint of models.py ContactGroup). -/
def cgPairsNodup (rows : List ContactGroupRow) : Prop :=
  (rows.map (fun r => (r.contact, r.group))).Nodup

/-- Next free Group primary key. -/
def freshGroupId (db : DB) : Nat :=
  (db.groups.foldr (fun g m => max g.id m) 0) + 1

/-- Roll a finished transaction body back to the entry state when it reports
an error, keep its final state otherwise. -/
def rollback {ε : Type} (db : DB) : DB × Option ε → DB × Option ε
  | (db2, none) => (db2, none)
  | (_, some e) => (db, some e)

/-- transaction.atomic: run the body on the state; when the body reports an
error the whole transaction rolls back to the entry state. -/
def transactionAtomic {ε : Type} (f : DB → DB × Option ε) (db : DB) :
    DB × Option ε :=
  rollback db (f db)

/-- The body of GroupDeserializer.save on the create path, without the
transaction wrapper: validate that the requesting user has a contact, insert
the Group row (created_by = that contact), then add the creator as admin with
inviter = itself.  memFail is an oracle for a store failure during the
membership insert; when it fires, the Group row has already been written. -/
def groupCreateRaw (db : DB) (u : Nat) (nm ds : String) (memFail : Bool) :
    DB × Option GroupErr :=
  match db.contacts.find? (fun ct => ct.userId == u) with
  | none => (db, some GroupErr.noContactList)
  | some ct =>
      let gid := freshGroupId db
      let db1 := { db with groups := db.groups ++ [⟨gid, nm, ds, ct.id, none⟩] }
      if memFail then (db1, some GroupErr.storeFailure)
      else
        ({ db1 with
            contactGroups := cgAdd db1.contactGroups ct.id gid Role.admin ct.id 0 },
         none)

/-- serializers.py GroupDeserializer.save, create path (transaction.atomic). -/
def groupCreate (db : DB) (u : Nat) (nm ds : String) (memFail : Bool) :
    DB × Option GroupErr :=
  transactionAtomic (fun d => groupCreateRaw d u nm ds memFail) db

/-- serializers.py GroupDeserializer.save, update path (transaction.atomic):
save the instance with updated_by = the acting contact, then run the same
"add creator as admin" m2m add as on the create path. -/
def groupUpdateSave (db : DB) (u : Nat) (gid : Nat) (nm ds : String) :
    DB × Option GroupErr :=
  transactionAtomic (fun d =>
    match d.contacts.find? (fun ct => ct.userId == u) with
    | none => (d, some GroupErr.noContactList)
    | some ct =>
        let d1 := { d with
          groups := d.groups.map (fun (g : GroupRow) =>
            if g.id == gid then
              { g with name := nm, description := ds, updated_by := some ct.id }
            else g) }
        ({ d1 with
            contactGroups := cgAdd d1.contactGroups ct.id gid Role.admin ct.id 0 },
         none)) db

/-! ### Personal contact list (serializers.py ContactOfContactDeserializer,
views.py ContactOfContact*View) -/

/-- Django m2m add for Contact.contacts: insert only when no
(owner, contact) row exists; starred of an existing row is untouched. -/
def cmAdd (rows : List ContactMembershipRow) (o c : Nat) (st : Bool) :
    List ContactMembershipRow :=
  if rows.any (fun r => r.owner == o && r.contact == c) then rows
  else rows ++ [⟨o, c, st⟩]

/-- views.py ContactOfContactListView.create + serializers.py
ContactOfContactDeserializer.create: 404 when the owner contact id does not
exist, validation error when the target contact id does not exist (the
PrimaryKeyRelatedField), then contact.contacts.add(new_contact,
through_defaults starred).  No further existence or self-add check is made. -/
def contactListAdd (db : DB) (ownerId targetId : Nat) (st : Bool) :
    Except ApiErr DB :=
  if !(db.contacts.any (fun ct => ct.id == ownerId)) then
    Except.error ApiErr.notFound
  else if !(db.contacts.any (fun ct => ct.id == targetId)) then
    Except.error (ApiErr.validation "Invalid pk - object does not exist.")
  else
    Except.ok { db with memberships := cmAdd db.memberships ownerId targetId st }

/-- views.py ContactOfContactDetailView.perform_destroy:
contact.contacts.remove(instance). -/
def contactListRemove (db : DB) (ownerId targetId : Nat) : DB :=
  { db with
      memberships :=
        db.memberships.filter (fun r => !(r.owner == ownerId && r.contact == targetId)) }

/-- One contact-list operation of the HTTP surface. -/
inductive CLOp
  | add (ownerId targetId : Nat) (st : Bool)
  | remove (ownerId targetId : Nat)
deriving DecidableEq, Repr

def applyCLOp (db : DB) (op : CLOp) : DB :=
  match op with
  | CLOp.add o c st =>
      match contactListAdd db o c st with
      | Except.ok db1 => db1
      | Except.error _ => db
  | CLOp.remove o c => contactListRemove db o c

def applyCLOps (db : DB) (ops : List CLOp) : DB :=
  ops.foldl applyCLOp db

/-- Each (owner, contact) pair occurs in at most one ContactMembership row. -/
def cmPairsNodup (rows : List ContactMembershipRow) : Prop :=
  (rows.map (fun r => (r.owner, r.contact))).Nodup

/-! ### Contact update (serializers.py ContactDeserializer) -/

/-- The validated payload of ContactDeserializer: every field optional
(user has required=False; the text fields are blank=True model fields). -/
structure ContactPayload where
  user : Option Nat
  nickname : Option String
  company : Option String
  title : Option String
  address : Option String
deriving DecidableEq, Repr

/-- ContactDeserializer.update after the user key has been popped: only the
provided profile fields of the instance change. -/
def applyContactUpdate (db : DB) (pk : Nat) (p : ContactPayload) : DB :=
  { db with
      contacts := db.contacts.map (fun ct =>
        if ct.id == pk then
          { ct with
              nickname := p.nickname.getD ct.nickname,
              company := p.company.getD ct.company,
              title := p.title.getD ct.title,
              address := p.address.getD ct.address }
        else ct) }

/-- views.py ContactDetailView.update + serializers.py ContactDeserializer:
404 when the contact id does not exist; when a user value is supplied, the
PrimaryKeyRelatedField requires it to exist and validate_user rejects it when
some contact already points at it; otherwise update() pops the user key and
applies the remaining fields. -/
def contactUpdate (db : DB) (pk : Nat) (p : ContactPayload) : Except ApiErr DB :=
  match db.contacts.find? (fun ct => ct.id == pk) with
  | none => Except.error ApiErr.notFound
  | some _ =>
      match p.user with
      | none => Except.ok (applyContactUpdate db pk p)
      | some uid =>
          if !(db.users.any (fun w => w == uid)) then
            Except.error (ApiErr.validation "Invalid pk - object does not exist.")
          else if db.contacts.any (fun ct => ct.userId == uid) then
            Except.error
              (ApiErr.validation
                ("User ID " ++ toString uid ++ " has a contact list already."))
          else Except.ok (applyContactUpdate db pk p)

/-! ### Group member list (models.py Group.get_contacts,
views.py BaseContactGroupView.get_contacts_of) -/

/-- A phone number attached to a serialized contact: the Phone row plus the
is_primary flag annotated from its ContactPhone row. -/
structure PhoneView where
  phoneId : Nat
  phone_number : String
  phone_type : PhoneType
  is_primary : Bool
deriving DecidableEq, Repr

/-- ContactQuerySet.prefetch_phone_numbers for one contact: each ContactPhone
row of the contact joined with its Phone row, annotated with is_primary. -/
def phonesOf (db : DB) (c : Nat) : List PhoneView :=
  db.contactPhones.filterMap (fun cp =>
    if cp.contact == c then
      (db.phones.find? (fun p => p.id == cp.phone)).map
        (fun p => ⟨p.id, p.phone_number, p.phone_type, cp.is_primary⟩)
    else none)

/-- A member of a group as serialized by ContactGroupSerializer: the contact
id annotated with role, invited_by and joined_at from its ContactGroup row,
plus the prefetched phone numbers. -/
structure MemberView where
  id : Nat
  role : Role
  invited_by : Nat
  joined_at : Nat
  phones : List PhoneView
deriving DecidableEq, Repr

/-- Build the view of one member from its Contact and ContactGroup rows. -/
def mkMemberView (db : DB) (ct : ContactRow) (r : ContactGroupRow) : MemberView :=
  ⟨ct.id, r.role, r.inviter, r.joined_at, phonesOf db ct.id⟩

/-- The join underlying Group.get_contacts before ordering and DISTINCT:
one row per ContactGroup row of the group whose contact exists, annotated
from that row (the annotation join is reused, so it is constrained to this
group). -/
def memberRows (db : DB) (g : Nat) : List MemberView :=
  db.contactGroups.filterMap (fun r =>
    if r.group == g then
      (db.contacts.find? (fun ct => ct.id == r.contact)).map
        (fun ct => mkMemberView db ct r)
    else none)

/-- The ORDER BY id relation on member views. -/
def memberLE (a b : MemberView) : Prop := a.id ≤ b.id

instance : DecidableRel memberLE := fun a b => Nat.decLe a.id b.id

instance : IsTotal MemberView memberLE := ⟨fun a b => Nat.le_total a.id b.id⟩

instance : IsTrans MemberView memberLE := ⟨fun _ _ _ => Nat.le_trans⟩

/-- models.py Group.get_contacts / views.py get_contacts_of: the member join,
ordered ascending by contact id, with SQL DISTINCT modelled by List.dedup. -/
def get_contacts (db : DB) (g : Nat) : List MemberView :=
  (List.insertionSort memberLE (memberRows db g)).dedup

/-! ### Group member views and permissions (views.py ContactGroupView,
ContactGroupDetailView; permissions.py) -/

/-- views.py BaseContactGroupView.get_queryset (the second definition, used
by the member views): groups created by the requesting user or where the
user's contact is a member.  Django coerces the user against the
Contact-typed created_by foreign key by primary key, so created_by (a contact
id) is compared with the user id, as the TODO comments in the source note. -/
def accessibleByUser (db : DB) (u : Nat) : List GroupRow :=
  db.groups.filter (fun g =>
    g.created_by == u ||
      db.contactGroups.any (fun r =>
        r.group == g.id &&
          db.contacts.any (fun ct => ct.id == r.contact && ct.userId == u)))

/-- permissions.py IsGroupAdmin.has_permission. -/
def isGroupAdminPerm (db : DB) (groupId u : Nat) : Bool :=
  db.contactGroups.any (fun r =>
    r.group == groupId && r.role == Role.admin &&
      db.contacts.any (fun ct => ct.id == r.contact && ct.userId == u))

/-- permissions.py IsGroupMember.has_permission. -/
def isGroupMemberPerm (db : DB) (groupId u : Nat) : Bool :=
  db.contactGroups.any (fun r =>
    r.group == groupId &&
      db.contacts.any (fun ct => ct.id == r.contact && ct.userId == u))

/-- The validated payload of ContactGroupDeserializer: contact, role and
inviter are all required; contact and inviter must be existing contacts. -/
structure MemberPayload where
  contact : Nat
  role : Role
  inviter : Nat
deriving DecidableEq, Repr

/-- views.py ContactGroupDetailView.update: resolve the group among the
requester-accessible groups (404 otherwise), resolve the member instance in
the member queryset (404 otherwise), validate the payload, then set the role
of the (instance, group) ContactGroup row.  No permission class is attached
to the view, so no admin check happens anywhere on this path. -/
def groupMemberUpdate (db : DB) (u gid pk : Nat) (payload : MemberPayload) :
    Except ApiErr DB :=
  match (accessibleByUser db u).find? (fun g => g.id == gid) with
  | none => Except.error ApiErr.notFound
  | some _ =>
      match (get_contacts db gid).find? (fun v => v.id == pk) with
      | none => Except.error ApiErr.notFound
      | some _ =>
          if !(db.contacts.any (fun ct => ct.id == payload.contact)) then
            Except.error (ApiErr.validation "Invalid pk - object does not exist.")
          else if !(db.contacts.any (fun ct => ct.id == payload.inviter)) then
            Except.error (ApiErr.validation "Invalid pk - object does not exist.")
          else
            Except.ok
              { db with
                  contactGroups := db.contactGroups.map (fun r =>
                    if r.contact == pk && r.group == gid then
                      { r with role := payload.role }
                    else r) }

/-- views.py ContactGroupDetailView.retrieve: resolve the group among the
requester-accessible groups (404 otherwise, in particular for any user that
is neither the recorded creator key nor a member), then the member (404). -/
def groupMemberRetrieve (db : DB) (u gid pk : Nat) : Except ApiErr MemberView :=
  match (accessibleByUser db u).find? (fun g => g.id == gid) with
  | none => Except.error ApiErr.notFound
  | some _ =>
      match (get_contacts db gid).find? (fun v => v.id == pk) with
      | none => Except.error ApiErr.notFound
      | some v => Except.ok v

/-! ### Concrete databases used by counterexamples and witnesses -/

/-- One contact (id 1, user 1) whose only phone association (phone 1) is its
primary phone. -/
def dbOnePrimary : DB :=
  { users := [1],
    contacts := [⟨1, 1, "", "", "", ""⟩],
    memberships := [],
    phones := [⟨1, "+628111111111", PhoneType.cellphone⟩],
    contactPhones := [⟨1, 1, true⟩],
    groups := [],
    contactGroups := [] }

/-- Group 10 created by contact 1 with admin member 1 and plain member 2;
contact 3 is not a member.  Users and contacts share ids here. -/
def dbGroup : DB :=
  { users := [1, 2, 3],
    contacts := [⟨1, 1, "", "", "", ""⟩, ⟨2, 2, "", "", "", ""⟩, ⟨3, 3, "", "", "", ""⟩],
    memberships := [],
    phones := [],
    contactPhones := [],
    groups := [⟨10, "Engineering", "", 1, none⟩],
    contactGroups := [⟨1, 10, Role.admin, 1, 0⟩, ⟨2, 10, Role.member, 1, 5⟩] }

/-- Contact 1 already has contact 2 in its personal list. -/
def dbMembership : DB :=
  { users := [1, 2],
    contacts := [⟨1, 1, "", "", "", ""⟩, ⟨2, 2, "", "", "", ""⟩],
    memberships := [⟨1, 2, false⟩],
    phones := [],
    contactPhones := [],
    groups := [],
    contactGroups := [] }

/-- Contact 1 is owned by user 1; user 2 exists and owns no contact. -/
def dbTwoUsers : DB :=
  { users := [1, 2],
    contacts := [⟨1, 1, "", "", "", ""⟩],
    memberships := [],
    phones := [],
    contactPhones := [],
    groups := [],
    contactGroups := [] }

/-- A payload that only supplies the user field. -/
def payloadUserOnly : ContactPayload := ⟨some 2, none, none, none, none⟩

/-- An update payload re-saving phone 1 as primary. -/
def payloadPrimaryTrue : PhonePayload := ⟨"+628111111111", PhoneType.cellphone, some true⟩

/-! ## Helper lemmas about the phone component -/

theorem keyCount_eq_zero {rows : List ContactPhoneRow} {c p : Nat}
    (h : (c, p) ∉ rows.map (fun r => (r.contact, r.phone))) : keyCount rows c p = 0 := by
  induction rows with
  | nil => rfl
  | cons r rs ih =>
      simp only [List.map_cons, List.mem_cons, not_or] at h
      have hr : (r.contact == c && r.phone == p) = false := by
        by_contra hb
        rw [Bool.not_eq_false, Bool.and_eq_true, beq_iff_eq, beq_iff_eq] at hb
        exact h.1 (by simp [hb.1, hb.2])
      simpa [keyCount, List.filter_cons, hr] using ih h.2

theorem keyCount_le_one {rows : List ContactPhoneRow} {c p : Nat}
    (h : cpPairsNodup rows) : keyCount rows c p ≤ 1 := by
  induction rows with
  | nil => simp [keyCount]
  | cons r rs ih =>
      rw [cpPairsNodup, List.map_cons, List.nodup_cons] at h
      by_cases hk : (r.contact == c && r.phone == p) = true
      · have hcp : ((c : Nat), (p : Nat)) = (r.contact, r.phone) := by
          rw [Bool.and_eq_true, beq_iff_eq, beq_iff_eq] at hk
          simp [hk.1, hk.2]
        have h0 : keyCount rs c p = 0 := keyCount_eq_zero (hcp ▸ h.1)
        rw [keyCount] at h0 ⊢
        simp [List.filter_cons, hk, h0, List.length_eq_zero.mp h0]
      · have hrec := ih h.2
        rw [keyCount] at hrec ⊢
        simpa [List.filter_cons, hk] using hrec

theorem primaryCount_eq_zero {rows : List ContactPhoneRow} {c : Nat}
    (h : ∀ r ∈ rows, (r.contact == c && r.is_primary) = false) :
    primaryCount rows c = 0 := by
  rw [primaryCount, List.length_eq_zero, List.filter_eq_nil_iff]
  intro r hr
  simp [h r hr]

theorem has_primary_phone_false {db : DB} {c : Nat}
    (h : has_primary_phone db c = false) : primaryCount db.contactPhones c = 0 := by
  rw [has_primary_phone, List.any_eq_false] at h
  exact primaryCount_eq_zero (fun r hr => by simpa using h r hr)

theorem primaryCount_cons (r : ContactPhoneRow) (rs : List ContactPhoneRow) (c : Nat) :
    primaryCount (r :: rs) c =
      primaryCount rs c + (if (r.contact == c && r.is_primary) = true then 1 else 0) := by
  by_cases h : (r.contact == c && r.is_primary) = true
  · simp [primaryCount, List.filter_cons, h]
  · simp [primaryCount, List.filter_cons, h]

theorem keyCount_cons (r : ContactPhoneRow) (rs : List ContactPhoneRow) (c p : Nat) :
    keyCount (r :: rs) c p =
      keyCount rs c p + (if (r.contact == c && r.phone == p) = true then 1 else 0) := by
  by_cases h : (r.contact == c && r.phone == p) = true
  · simp [keyCount, List.filter_cons, h]
  · simp [keyCount, List.filter_cons, h]

theorem flipCP_of_key {c p : Nat} {b : Bool} {r : ContactPhoneRow}
    (hk : (r.contact == c && r.phone == p) = true) :
    flipCP c p b r = ⟨r.contact, r.phone, b⟩ := by
  rw [flipCP, if_pos hk]

theorem flipCP_of_not_key {c p : Nat} {b : Bool} {r : ContactPhoneRow}
    (hk : ¬(r.contact == c && r.phone == p) = true) : flipCP c p b r = r := by
  rw [flipCP, if_neg hk]

theorem and_true_left {a b : Bool} (h : (a && b) = true) : a = true := by
  cases a with
  | true => rfl
  | false => rw [Bool.false_and] at h; exact absurd h (by simp)

theorem flipCP_true_primaryCount {rows : List ContactPhoneRow} {c p : Nat}
    (h : ∀ r ∈ rows, (r.contact == c && r.is_primary) = false) :
    primaryCount (rows.map (flipCP c p true)) c = keyCount rows c p := by
  induction rows with
  | nil => rfl
  | cons r rs ih =>
      have hrec := ih (fun r hr => h r (List.mem_cons_of_mem _ hr))
      rw [List.map_cons, primaryCount_cons, keyCount_cons, hrec]
      by_cases hk : (r.contact == c && r.phone == p) = true
      · have hc : (r.contact == c) = true := and_true_left hk
        rw [flipCP_of_key hk, if_pos hk, if_pos (by simp [hc])]
      · have hr0 : (r.contact == c && r.is_primary) = false := h r (List.mem_cons_self r rs)
        rw [flipCP_of_not_key hk, if_neg hk, if_neg (by simp [hr0])]

theorem flipCP_false_primaryCount_le (rows : List ContactPhoneRow) (c p : Nat) :
    primaryCount (rows.map (flipCP c p false)) c ≤ primaryCount rows c := by
  induction rows with
  | nil => exact Nat.le_refl 0
  | cons r rs ih =>
      rw [List.map_cons, primaryCount_cons, primaryCount_cons]
      by_cases hk : (r.contact == c && r.phone == p) = true
      · rw [flipCP_of_key hk]
        simp only [Bool.and_false]
        have hz : (if ((false : Bool) = true) then 1 else 0) = 0 := rfl
        rw [hz]
        omega
      · rw [flipCP_of_not_key hk]
        omega

theorem flipCP_primaryCount_other {rows : List ContactPhoneRow} {c p : Nat} {b : Bool}
    {d : Nat} (hne : d ≠ c) :
    primaryCount (rows.map (flipCP c p b)) d = primaryCount rows d := by
  induction rows with
  | nil => rfl
  | cons r rs ih =>
      rw [List.map_cons, primaryCount_cons, primaryCount_cons, ih]
      by_cases hk : (r.contact == c && r.phone == p) = true
      · have hc : r.contact = c := beq_iff_eq.mp (and_true_left hk)
        have hd : (r.contact == d) = false := by
          rw [beq_eq_false_iff_ne]
          exact fun hcd => hne (Eq.trans hcd.symm hc)
        rw [flipCP_of_key hk]
        simp only [hd, Bool.false_and]
      · rw [flipCP_of_not_key hk]

theorem primaryCount_append (rows : List ContactPhoneRow) (x : ContactPhoneRow) (c : Nat) :
    primaryCount (rows ++ [x]) c =
      primaryCount rows c + (if (x.contact == c && x.is_primary) = true then 1 else 0) := by
  rw [primaryCount, primaryCount, List.filter_append, List.length_append]
  by_cases h : (x.contact == c && x.is_primary) = true
  · simp [List.filter_cons, h]
  · simp [List.filter_cons, h]

theorem updateOrCreateCP_primaryCount {rows : List ContactPhoneRow} {c p : Nat} {b : Bool}
    (hnodup : cpPairsNodup rows)
    (hall : ∀ d, primaryCount rows d ≤ 1)
    (hz : b = true → primaryCount rows c = 0) :
    ∀ d, primaryCount (updateOrCreateCP rows c p b) d ≤ 1 := by
  intro d
  rw [updateOrCreateCP]
  split
  · -- update branch
    by_cases hd : d = c
    · subst hd
      cases b with
      | true =>
          have h0 := hz rfl
          rw [primaryCount, List.length_eq_zero, List.filter_eq_nil_iff] at h0
          have hpt : ∀ r ∈ rows, (r.contact == d && r.is_primary) = false := by
            intro r hr
            have := h0 r hr
            simpa using this
          rw [flipCP_true_primaryCount hpt]
          exact keyCount_le_one hnodup
      | false =>
          exact Nat.le_trans (flipCP_false_primaryCount_le rows d p) (hall d)
    · rw [flipCP_primaryCount_other hd]
      exact hall d
  · -- insert branch
    rw [primaryCount_append]
    by_cases hd : d = c
    · subst hd
      cases b with
      | true =>
          have h0 := hz rfl
          simp [h0]
      | false => simpa using hall d
    · have hdc : (c == d) = false := by
        rw [beq_eq_false_iff_ne]
        exact fun hcd => hd hcd.symm
      simpa [hdc] using hall d

theorem updateOrCreateCP_pairsNodup {rows : List ContactPhoneRow} {c p : Nat} {b : Bool}
    (h : cpPairsNodup rows) : cpPairsNodup (updateOrCreateCP rows c p b) := by
  rw [updateOrCreateCP]
  split
  · have hkeys :
        (rows.map (flipCP c p b)).map (fun r => (r.contact, r.phone)) =
          rows.map (fun r => (r.contact, r.phone)) := by
      rw [List.map_map]
      apply List.map_congr_left
      intro r _
      rw [Function.comp_apply, flipCP]
      split <;> rfl
    rw [cpPairsNodup, hkeys]
    exact h
  · next hany =>
      rw [cpPairsNodup, List.map_append]
      have hmem : ((c : Nat), (p : Nat)) ∉ rows.map (fun r => (r.contact, r.phone)) := by
        intro hcp
        rcases List.mem_map.mp hcp with ⟨r, hr, heq⟩
        have h1 : r.contact = c := congrArg Prod.fst heq
        have h2 : r.phone = p := congrArg Prod.snd heq
        have : rows.any (fun r => r.contact == c && r.phone == p) = true :=
          List.any_eq_true.mpr ⟨r, hr, by simp [h1, h2]⟩
        simp [this] at hany
      rw [List.nodup_append]
      refine ⟨h, List.nodup_singleton _, ?_⟩
      intro a ha hb
      simp only [List.map_cons, List.map_nil, List.mem_singleton] at hb
      subst hb
      exact hmem ha

theorem filter_primaryCount_le (rows : List ContactPhoneRow) (q : ContactPhoneRow → Bool)
    (c : Nat) : primaryCount (rows.filter q) c ≤ primaryCount rows c := by
  rw [primaryCount, primaryCount]
  exact ((List.filter_sublist rows).filter _).length_le

theorem filter_pairsNodup {rows : List ContactPhoneRow} (q : ContactPhoneRow → Bool)
    (h : cpPairsNodup rows) : cpPairsNodup (rows.filter q) := by
  rw [cpPairsNodup]
  exact List.Nodup.sublist ((List.filter_sublist rows).map _) h

theorem phoneModelSave_contactPhones (db : DB) (inst : Option Nat) (p : PhonePayload) :
    (phoneModelSave db inst p).1.contactPhones = db.contactPhones := by
  cases inst <;> rfl

theorem phoneModelSave_has_primary (db : DB) (inst : Option Nat) (p : PhonePayload)
    (c : Nat) :
    has_primary_phone (phoneModelSave db inst p).1 c = has_primary_phone db c := by
  rw [has_primary_phone, has_primary_phone, phoneModelSave_contactPhones]

theorem phoneSave_ok_inv {db : DB} {c : Nat} {inst : Option Nat} {payload : PhonePayload}
    {res : DB × Nat} (h : PhoneInv db)
    (hok : phoneSave db c inst payload = Except.ok res) : PhoneInv res.1 := by
  rw [phoneSave] at hok
  cases hip : payload.is_primary with
  | none => rw [hip] at hok; exact absurd hok (by simp)
  | some b =>
      simp only [hip, contactPhoneClean, phoneModelSave_has_primary] at hok
      by_cases hcl : (b && has_primary_phone db c) = true
      · rw [if_pos hcl] at hok
        exact absurd hok (by simp)
      · rw [if_neg hcl] at hok
        have hok2 :
            Except.ok (ε := PhoneSaveErr)
              ({ (phoneModelSave db inst payload).1 with
                  contactPhones :=
                    updateOrCreateCP (phoneModelSave db inst payload).1.contactPhones c
                      (phoneModelSave db inst payload).2 b },
               (phoneModelSave db inst payload).2) = Except.ok res := hok
        have h3 := (Except.ok.inj hok2).symm
        subst h3
        have hres :
            ({ (phoneModelSave db inst payload).1 with
                contactPhones :=
                  updateOrCreateCP (phoneModelSave db inst payload).1.contactPhones c
                    (phoneModelSave db inst payload).2 b },
             (phoneModelSave db inst payload).2).1.contactPhones =
              updateOrCreateCP db.contactPhones c (phoneModelSave db inst payload).2 b := by
          rw [phoneModelSave_contactPhones]
        constructor
        · rw [hres]
          exact updateOrCreateCP_pairsNodup h.1
        · intro d
          rw [hres]
          refine updateOrCreateCP_primaryCount h.1 h.2 ?_ d
          intro hb
          subst hb
          rw [Bool.true_and] at hcl
          exact has_primary_phone_false (Bool.not_eq_true _ ▸ Bool.eq_false_iff.mpr hcl)

theorem applyPhoneOp_inv {db : DB} (op : PhoneOp) (h : PhoneInv db) :
    PhoneInv (applyPhoneOp db op) := by
  cases op with
  | create c payload =>
      rw [applyPhoneOp]
      cases hs : phoneSave db c none payload with
      | ok res => exact phoneSave_ok_inv h hs
      | error e => exact h
  | update c pid payload =>
      rw [applyPhoneOp]
      cases hs : phoneSave db c (some pid) payload with
      | ok res => exact phoneSave_ok_inv h hs
      | error e => exact h
  | delete pid =>
      refine ⟨filter_pairsNodup _ h.1, fun d => ?_⟩
      exact Nat.le_trans (filter_primaryCount_le _ _ d) (h.2 d)

theorem applyPhoneOps_inv {db : DB} (ops : List PhoneOp) (h : PhoneInv db) :
    PhoneInv (applyPhoneOps db ops) := by
  induction ops generalizing db with
  | nil => exact h
  | cons op rest ih => exact ih (applyPhoneOp_inv op h)

/-! ## Claims about the phone component -/

/-- Claim C2: for every contact and every sequence of phone-association
create, update and delete operations executed one at a time, at most one
ContactPhone row of that contact has is_primary = true after each operation
(every prefix of a sequence is itself a sequence). -/
theorem phone_primary_at_most_one (ops : List PhoneOp) (c : Nat) :
    primaryCount (applyPhoneOps DB.empty ops).contactPhones c ≤ 1 :=
  (applyPhoneOps_inv ops
      ⟨by simp [cpPairsNodup, DB.empty], fun d => by simp [primaryCount, DB.empty]⟩).2 c

/-- Claim C1, counterexample: contact 1 has exactly one phone association
(phone 1) and it is primary.  Re-saving that sole association — the very row
being modified — with is_primary = true is rejected by the clean() check,
while the claim states that it succeeds: the query of
ContactPhone.\_has\_primary\_phone does not exclude the row being modified. -/
theorem phone_primary_resave_rejected :
    phoneSave dbOnePrimary 1 (some 1) payloadPrimaryTrue =
      Except.error (PhoneSaveErr.validation "Contact ID 1 has primary phone already.") := by
  rfl

/-- Claim C1 as amended: on a create or update of a phone association with
candidate is_primary = true, the operation is rejected — with a validation
error naming the contact id — exactly when any primary association row for
that contact already exists, the row being modified included (so re-saving
the sole existing primary association with is_primary = true is itself
rejected); with candidate is_primary = false the operation is never rejected
by this check. -/
theorem phone_primary_check (db : DB) (c : Nat) (inst : Option Nat)
    (pn : String) (pt : PhoneType) :
    (has_primary_phone db c = true →
      phoneSave db c inst ⟨pn, pt, some true⟩ =
        Except.error (PhoneSaveErr.validation
          ("Contact ID " ++ toString c ++ " has primary phone already."))) ∧
    (has_primary_phone db c = false →
      ∃ res, phoneSave db c inst ⟨pn, pt, some true⟩ = Except.ok res) ∧
    (∃ res, phoneSave db c inst ⟨pn, pt, some false⟩ = Except.ok res) := by
  have hhp : ∀ q : PhonePayload,
      has_primary_phone (phoneModelSave db inst q).1 c = has_primary_phone db c := by
    intro q
    rw [has_primary_phone, has_primary_phone, phoneModelSave_contactPhones]
  refine ⟨fun h => ?_, fun h => ?_, ?_⟩
  · rw [phoneSave]
    simp only [contactPhoneClean, hhp, h]
    rfl
  · rw [phoneSave]
    simp only [contactPhoneClean, hhp, h]
    exact ⟨_, rfl⟩
  · rw [phoneSave]
    simp only [contactPhoneClean, hhp]
    exact ⟨_, rfl⟩

/-- Witness for the amended claim C1, at the concrete state of the
counterexample: the re-save of the sole primary association is rejected with
the error naming contact 1, and saving with is_primary = false succeeds. -/
theorem phone_primary_check_witness :
    (phoneSave dbOnePrimary 1 (some 1) ⟨"+628111111111", PhoneType.cellphone, some true⟩ =
      Except.error (PhoneSaveErr.validation "Contact ID 1 has primary phone already.")) ∧
    (∃ res,
      phoneSave dbOnePrimary 1 (some 1) ⟨"+628111111111", PhoneType.cellphone, some false⟩ =
        Except.ok res) :=
  ⟨(phone_primary_check dbOnePrimary 1 (some 1) "+628111111111" PhoneType.cellphone).1 (by rfl),
   (phone_primary_check dbOnePrimary 1 (some 1) "+628111111111" PhoneType.cellphone).2.2⟩

/-- Claim C10: a validated phone payload that omits the optional is_primary
field makes PhoneDeserializer.save fail with the unhandled KeyError from
popping the missing key, not with a validation error. -/
theorem phone_save_missing_is_primary (db : DB) (c : Nat) (inst : Option Nat)
    (payload : PhonePayload) (h : payload.is_primary = none) :
    phoneSave db c inst payload = Except.error PhoneSaveErr.keyError := by
  rw [phoneSave, h]

/-- Witness for claim C10 at a concrete payload without is_primary. -/
theorem phone_save_missing_is_primary_witness :
    phoneSave dbOnePrimary 1 (some 1) ⟨"+628111111111", PhoneType.cellphone, none⟩ =
      Except.error PhoneSaveErr.keyError :=
  phone_save_missing_is_primary dbOnePrimary 1 (some 1) _ rfl

/-! ## Helper lemmas and claims about the personal contact list -/

theorem cmAdd_pairsNodup {rows : List ContactMembershipRow} {o c : Nat} {st : Bool}
    (h : cmPairsNodup rows) : cmPairsNodup (cmAdd rows o c st) := by
  rw [cmAdd]
  split
  · exact h
  · next hany =>
      rw [cmPairsNodup, List.map_append]
      have hmem : ((o : Nat), (c : Nat)) ∉ rows.map (fun r => (r.owner, r.contact)) := by
        intro hoc
        rcases List.mem_map.mp hoc with ⟨r, hr, heq⟩
        have h1 : r.owner = o := congrArg Prod.fst heq
        have h2 : r.contact = c := congrArg Prod.snd heq
        have : rows.any (fun r => r.owner == o && r.contact == c) = true :=
          List.any_eq_true.mpr ⟨r, hr, by simp [h1, h2]⟩
        simp [this] at hany
      rw [List.nodup_append]
      refine ⟨h, List.nodup_singleton _, ?_⟩
      intro a ha hb
      simp only [List.map_cons, List.map_nil, List.mem_singleton] at hb
      subst hb
      exact hmem ha

theorem cmAdd_of_mem {rows : List ContactMembershipRow} {o c : Nat} (st : Bool)
    (h : rows.any (fun r => r.owner == o && r.contact == c) = true) :
    cmAdd rows o c st = rows := by
  rw [cmAdd, if_pos h]

theorem contactListAdd_ok_memberships {db db2 : DB} {o t : Nat} {st : Bool}
    (h2 : contactListAdd db o t st = Except.ok db2) :
    db2.memberships = cmAdd db.memberships o t st := by
  rw [contactListAdd] at h2
  by_cases ho : (!db.contacts.any fun ct => ct.id == o) = true
  · rw [if_pos ho] at h2
    exact absurd h2 (by simp)
  · rw [if_neg ho] at h2
    by_cases ht : (!db.contacts.any fun ct => ct.id == t) = true
    · rw [if_pos ht] at h2
      exact absurd h2 (by simp)
    · rw [if_neg ht] at h2
      rw [← Except.ok.inj h2]

theorem applyCLOp_pairsNodup {db : DB} (op : CLOp)
    (h : cmPairsNodup db.memberships) : cmPairsNodup (applyCLOp db op).memberships := by
  cases op with
  | add o c st =>
      rw [applyCLOp]
      cases h2 : contactListAdd db o c st with
      | error e => exact h
      | ok db2 =>
          rw [contactListAdd_ok_memberships h2]
          exact cmAdd_pairsNodup h
  | remove o c =>
      rw [applyCLOp, contactListRemove]
      exact List.Nodup.sublist ((List.filter_sublist db.memberships).map _) h

theorem applyCLOps_pairsNodup {db : DB} (ops : List CLOp)
    (h : cmPairsNodup db.memberships) : cmPairsNodup (applyCLOps db ops).memberships := by
  induction ops generalizing db with
  | nil => exact h
  | cons op rest ih => exact ih (applyCLOp_pairsNodup op h)

/-- Claim C6, counterexample: contact 2 is already in contact 1's personal
list, yet adding it again succeeds with the state unchanged — the m2m add
skips existing pairs silently — where the claim requires a ValidationError. -/
theorem contact_list_duplicate_add_is_noop :
    contactListAdd dbMembership 1 2 true = Except.ok dbMembership := by
  rfl

/-- Claim C6 as amended: after any sequence of contact-list operations, at
most one ContactMembership row exists per (owner, contact) pair; a request to
add a contact already present in the owner's list succeeds as a no-op — no
duplicate row, no starred change and no ValidationError (and a self-add is
likewise accepted, inserting a single (owner, owner) row). -/
theorem contact_membership_unique :
    (∀ ops : List CLOp, cmPairsNodup (applyCLOps DB.empty ops).memberships) ∧
    (∀ (db : DB) (o t : Nat) (st : Bool),
      db.contacts.any (fun x => x.id == o) = true →
      db.contacts.any (fun x => x.id == t) = true →
      db.memberships.any (fun r => r.owner == o && r.contact == t) = true →
      contactListAdd db o t st = Except.ok db) := by
  constructor
  · intro ops
    exact applyCLOps_pairsNodup ops (by simp [cmPairsNodup, DB.empty])
  · intro db o t st ho ht hrow
    rw [contactListAdd, ho, ht]
    simp only [Bool.not_true, Bool.false_eq_true, if_false]
    rw [cmAdd_of_mem st hrow]

/-- Witness for the amended claim C6: the at-most-one invariant after a
concrete operation sequence that re-adds an existing pair, and the concrete
no-op re-add of the counterexample state. -/
theorem contact_membership_unique_witness :
    cmPairsNodup (applyCLOps DB.empty
      [CLOp.add 1 2 true, CLOp.add 1 2 false, CLOp.remove 1 2]).memberships ∧
    contactListAdd dbMembership 1 2 true = Except.ok dbMembership :=
  ⟨contact_membership_unique.1 [CLOp.add 1 2 true, CLOp.add 1 2 false, CLOp.remove 1 2],
   contact_membership_unique.2 dbMembership 1 2 true (by rfl) (by rfl) (by rfl)⟩

/-! ## Helper lemmas and claims about contact updates -/

theorem applyContactUpdate_userIds (db : DB) (pk : Nat) (p : ContactPayload) :
    (applyContactUpdate db pk p).contacts.map (fun ct => (ct.id, ct.userId)) =
      db.contacts.map (fun ct => (ct.id, ct.userId)) := by
  rw [applyContactUpdate]
  rw [List.map_map]
  apply List.map_congr_left
  intro ct _
  rw [Function.comp_apply]
  by_cases h : (ct.id == pk) = true
  · rw [if_pos h]
  · rw [if_neg h]

/-- Claim C7 as amended: no update ever changes which Account a Contact
points at — whenever an update succeeds, every contact's (id, account) pair
is as before; an update that supplies an Account value already owning a
contact (the instance's own account included) is rejected; an Account value
not owning any contact passes validation but is silently discarded by
update(), not applied. -/
theorem contact_account_write_once (db : DB) (pk : Nat) (p : ContactPayload) :
    (∀ db2, contactUpdate db pk p = Except.ok db2 →
      db2.contacts.map (fun ct => (ct.id, ct.userId)) =
        db.contacts.map (fun ct => (ct.id, ct.userId))) ∧
    (∀ u, p.user = some u →
      db.contacts.any (fun ct => ct.userId == u) = true →
      ∀ db2, contactUpdate db pk p ≠ Except.ok db2) := by
  constructor
  · intro db2 hok
    rw [contactUpdate] at hok
    cases hfind : db.contacts.find? (fun ct => ct.id == pk) with
    | none =>
        simp only [hfind] at hok
        exact absurd hok (by simp)
    | some inst =>
        simp only [hfind] at hok
        cases hu : p.user with
        | none =>
            simp only [hu] at hok
            have h2 := (Except.ok.inj hok).symm
            subst h2
            exact applyContactUpdate_userIds db pk p
        | some uid =>
            simp only [hu] at hok
            by_cases h1 : (db.users.any (fun w => w == uid)) = true
            · simp only [h1, Bool.not_true, Bool.false_eq_true, if_false] at hok
              by_cases h2 : (db.contacts.any (fun ct => ct.userId == uid)) = true
              · rw [if_pos h2] at hok
                exact absurd hok (by simp)
              · rw [if_neg h2] at hok
                have h3 := (Except.ok.inj hok).symm
                subst h3
                exact applyContactUpdate_userIds db pk p
            · rw [Bool.not_eq_true] at h1
              simp only [h1, Bool.not_false, if_true] at hok
              exact absurd hok (by simp)
  · intro u hu hexists db2 hok
    rw [contactUpdate] at hok
    cases hfind : db.contacts.find? (fun ct => ct.id == pk) with
    | none =>
        simp only [hfind] at hok
        exact absurd hok (by simp)
    | some inst =>
        simp only [hfind, hu] at hok
        by_cases h1 : (db.users.any (fun w => w == u)) = true
        · simp only [h1, Bool.not_true, Bool.false_eq_true, if_false, hexists, if_true] at hok
          exact absurd hok (by simp)
        · rw [Bool.not_eq_true] at h1
          simp only [h1, Bool.not_false, if_true] at hok
          exact absurd hok (by simp)

/-- Claim C7, counterexample: contact 1 is owned by account 1; an update that
supplies account 2 (which owns no contact) is not rejected — it succeeds and
the contact still points at account 1, the supplied value being silently
dropped by update(). -/
theorem contact_update_user_silently_dropped :
    contactUpdate dbTwoUsers 1 payloadUserOnly = Except.ok dbTwoUsers := by
  rfl

/-- Witness for the amended claim C7: a successful update that also changes
the nickname keeps every (contact, account) pair, and supplying the account
of an existing contact is rejected. -/
theorem contact_account_write_once_witness :
    ((applyContactUpdate dbTwoUsers 1 ⟨some 2, some "nick", none, none, none⟩).contacts.map
        (fun ct => (ct.id, ct.userId)) =
      dbTwoUsers.contacts.map (fun ct => (ct.id, ct.userId))) ∧
    (∀ db2, contactUpdate dbMembership 1 ⟨some 2, none, none, none, none⟩ ≠ Except.ok db2) :=
  ⟨(contact_account_write_once dbTwoUsers 1 ⟨some 2, some "nick", none, none, none⟩).1 _ (by rfl),
   (contact_account_write_once dbMembership 1 ⟨some 2, none, none, none, none⟩).2 2 rfl (by rfl)⟩

/-! ## Helper lemmas and claims about group creation and update -/

theorem le_foldr_max_groupId {l : List GroupRow} {g : GroupRow} (h : g ∈ l) :
    g.id ≤ l.foldr (fun x m => max x.id m) 0 := by
  induction l with
  | nil => cases h
  | cons x xs ih =>
      rcases List.mem_cons.mp h with h1 | h2
      · subst h1
        simp only [List.foldr_cons]
        exact Nat.le_max_left _ _
      · simp only [List.foldr_cons]
        exact Nat.le_trans (ih h2) (Nat.le_max_right _ _)

theorem groupId_lt_fresh {db : DB} {g : GroupRow} (h : g ∈ db.groups) :
    g.id < freshGroupId db := by
  rw [freshGroupId]
  exact Nat.lt_succ_of_le (le_foldr_max_groupId h)

theorem transactionAtomic_error {ε : Type} (f : DB → DB × Option ε) (db : DB)
    (h : (transactionAtomic f db).2.isSome = true) : (transactionAtomic f db).1 = db := by
  rw [transactionAtomic] at h ⊢
  cases hf : f db with
  | mk d2 oe =>
      rw [hf] at h
      cases oe with
      | none => simp [rollback] at h
      | some e => simp [rollback]

theorem transactionAtomic_ok {ε : Type} (f : DB → DB × Option ε) (db : DB)
    (h : (transactionAtomic f db).2 = none) : transactionAtomic f db = f db := by
  rw [transactionAtomic] at h ⊢
  cases hf : f db with
  | mk d2 oe =>
      rw [hf] at h
      cases oe with
      | none => simp [rollback]
      | some e => simp [rollback] at h

theorem cgAdd_not_mem {rows : List ContactGroupRow} {c g : Nat} {role : Role}
    {inviter t : Nat}
    (h : ∀ r ∈ rows, ¬(r.contact = c ∧ r.group = g)) :
    cgAdd rows c g role inviter t = rows ++ [⟨c, g, role, inviter, t⟩] := by
  rw [cgAdd, if_neg]
  intro hany
  rcases List.any_eq_true.mp hany with ⟨r, hr, hpred⟩
  rw [Bool.and_eq_true, beq_iff_eq, beq_iff_eq] at hpred
  exact h r hr hpred

/-- Claim C5: a successful group creation inserts the Group row together with
a ContactGroup row (creator, role admin, inviter = creator) in the same
atomic unit, and any failure — in particular a store failure during the
membership insert, after the Group row was already written inside the
transaction — leaves the database exactly as before: the Group row does not
persist.  The referential-integrity hypothesis (every ContactGroup row
points at an existing Group) guarantees the fresh group id is unclaimed. -/
theorem group_create_atomic (db : DB) (u : Nat) (nm ds : String) (memFail : Bool)
    (href : ∀ r ∈ db.contactGroups, ∃ g ∈ db.groups, g.id = r.group) :
    ((groupCreate db u nm ds memFail).2.isSome = true →
      (groupCreate db u nm ds memFail).1 = db) ∧
    ((groupCreate db u nm ds memFail).2 = none →
      ∃ ct ∈ db.contacts, ct.userId = u ∧
        (⟨freshGroupId db, nm, ds, ct.id, none⟩ : GroupRow) ∈
          (groupCreate db u nm ds memFail).1.groups ∧
        (⟨ct.id, freshGroupId db, Role.admin, ct.id, 0⟩ : ContactGroupRow) ∈
          (groupCreate db u nm ds memFail).1.contactGroups) := by
  constructor
  · exact transactionAtomic_error _ db
  · intro hnone
    cases hfind : db.contacts.find? (fun ct => ct.userId == u) with
    | none =>
        rw [groupCreate, transactionAtomic] at hnone
        simp only [groupCreateRaw, hfind, rollback] at hnone
        exact absurd hnone (by simp)
    | some ct =>
        cases memFail with
        | true =>
            rw [groupCreate, transactionAtomic] at hnone
            simp only [groupCreateRaw, hfind, if_true, rollback] at hnone
            exact absurd hnone (by simp)
        | false =>
            have hfree : ∀ r ∈ db.contactGroups,
                ¬(r.contact = ct.id ∧ r.group = freshGroupId db) := by
              intro r hr hcg
              rcases href r hr with ⟨g, hg, hgid⟩
              have := groupId_lt_fresh hg
              omega
            have heq : groupCreate db u nm ds false =
                ({ db with
                    groups := db.groups ++ [⟨freshGroupId db, nm, ds, ct.id, none⟩],
                    contactGroups :=
                      db.contactGroups ++
                        [⟨ct.id, freshGroupId db, Role.admin, ct.id, 0⟩] },
                 none) := by
              rw [groupCreate, transactionAtomic]
              simp only [groupCreateRaw, hfind, Bool.false_eq_true, if_false, rollback]
              rw [cgAdd_not_mem hfree]
            have hbeq := List.find?_some hfind
            refine ⟨ct, List.mem_of_find?_eq_some hfind, beq_iff_eq.mp hbeq, ?_, ?_⟩
            · rw [heq]
              exact List.mem_append_right _ (List.mem_singleton.mpr rfl)
            · rw [heq]
              exact List.mem_append_right _ (List.mem_singleton.mpr rfl)

/-- Witness for claim C5 at a concrete state: a failing membership insert
rolls the creation back entirely, and a successful creation of group g2 by
contact 3 inserts both rows. -/
theorem group_create_atomic_witness :
    ((groupCreate dbGroup 3 "g2" "" true).2.isSome = true →
      (groupCreate dbGroup 3 "g2" "" true).1 = dbGroup) ∧
    ((groupCreate dbGroup 3 "g2" "" false).2 = none →
      ∃ ct ∈ dbGroup.contacts, ct.userId = 3 ∧
        (⟨freshGroupId dbGroup, "g2", "", ct.id, none⟩ : GroupRow) ∈
          (groupCreate dbGroup 3 "g2" "" false).1.groups ∧
        (⟨ct.id, freshGroupId dbGroup, Role.admin, ct.id, 0⟩ : ContactGroupRow) ∈
          (groupCreate dbGroup 3 "g2" "" false).1.contactGroups) :=
  ⟨(group_create_atomic dbGroup 3 "g2" "" true (by decide)).1,
   (group_create_atomic dbGroup 3 "g2" "" false (by decide)).2⟩

/-- Claim C9: GroupDeserializer.save runs the creator-as-admin m2m add on the
update path too: a successful name/description update performed by an acting
contact that is not currently a member of the group additionally inserts a
ContactGroup row (acting contact, role admin, inviter = acting contact). -/
theorem group_update_inserts_admin (db : DB) (u gid : Nat) (nm ds : String)
    (ct : ContactRow)
    (hfind : db.contacts.find? (fun x => x.userId == u) = some ct)
    (hnm : ∀ r ∈ db.contactGroups, ¬(r.contact = ct.id ∧ r.group = gid)) :
    (groupUpdateSave db u gid nm ds).2 = none ∧
    (⟨ct.id, gid, Role.admin, ct.id, 0⟩ : ContactGroupRow) ∈
      (groupUpdateSave db u gid nm ds).1.contactGroups ∧
    ∀ g ∈ db.groups, g.id = gid →
      ({ g with name := nm, description := ds, updated_by := some ct.id } : GroupRow) ∈
        (groupUpdateSave db u gid nm ds).1.groups := by
  have hbody :
      groupUpdateSave db u gid nm ds =
        ({ db with
            groups := db.groups.map (fun (g : GroupRow) =>
              if g.id == gid then
                { g with name := nm, description := ds, updated_by := some ct.id }
              else g),
            contactGroups :=
              db.contactGroups ++ [⟨ct.id, gid, Role.admin, ct.id, 0⟩] },
         none) := by
    rw [groupUpdateSave, transactionAtomic]
    simp only [hfind, rollback]
    rw [cgAdd_not_mem hnm]
  refine ⟨by rw [hbody], ?_, ?_⟩
  · rw [hbody]
    exact List.mem_append_right _ (List.mem_singleton.mpr rfl)
  · intro g hg hgid
    rw [hbody]
    have hf :
        (if g.id == gid then
            ({ g with name := nm, description := ds, updated_by := some ct.id } : GroupRow)
          else g) =
          { g with name := nm, description := ds, updated_by := some ct.id } := by
      rw [if_pos (beq_iff_eq.mpr hgid)]
    exact hf ▸ List.mem_map_of_mem _ hg

/-- Witness for claim C9: contact 3 (not a member of group 10) updates the
group; the admin row for contact 3 is inserted and the group row is saved
with updated_by = 3. -/
theorem group_update_inserts_admin_witness :
    (groupUpdateSave dbGroup 3 10 "x" "y").2 = none ∧
    (⟨3, 10, Role.admin, 3, 0⟩ : ContactGroupRow) ∈
      (groupUpdateSave dbGroup 3 10 "x" "y").1.contactGroups ∧
    ∀ g ∈ dbGroup.groups, g.id = 10 →
      ({ g with name := "x", description := "y", updated_by := some 3 } : GroupRow) ∈
        (groupUpdateSave dbGroup 3 10 "x" "y").1.groups :=
  group_update_inserts_admin dbGroup 3 10 "x" "y" ⟨3, 3, "", "", "", ""⟩ (by rfl) (by decide)

/-! ## Claim about GroupQuerySet.accessible_for -/

/-- Claim C4: when group ids are unique (the primary-key constraint),
accessible_for(contact) returns each group at most once, returns exactly the
groups the contact created or has a ContactGroup row for, and no other. -/
theorem accessible_for_spec (db : DB) (c : Nat)
    (hids : (db.groups.map GroupRow.id).Nodup) :
    ((accessible_for db c).map GroupRow.id).Nodup ∧
    ∀ g, g ∈ accessible_for db c ↔
      (g ∈ db.groups ∧
        (g.created_by = c ∨ ∃ r ∈ db.contactGroups, r.contact = c ∧ r.group = g.id)) := by
  constructor
  · have h1 :
        ((db.groups.filter (fun g =>
          g.created_by == c ||
            db.contactGroups.any (fun r => r.contact == c && r.group == g.id))).map
            GroupRow.id).Nodup :=
      List.Nodup.sublist ((List.filter_sublist db.groups).map GroupRow.id) hids
    exact List.Nodup.sublist ((List.dedup_sublist _).map GroupRow.id) h1
  · intro g
    rw [accessible_for, List.mem_dedup, List.mem_filter]
    simp only [Bool.or_eq_true, beq_iff_eq, List.any_eq_true, Bool.and_eq_true]

/-- Witness for claim C4 at the concrete group database: contact 1 both
created group 10 and is a member of it, and the group is listed once. -/
theorem accessible_for_spec_witness :
    ((accessible_for dbGroup 1).map GroupRow.id).Nodup ∧
    ∀ g, g ∈ accessible_for dbGroup 1 ↔
      (g ∈ dbGroup.groups ∧
        (g.created_by = 1 ∨ ∃ r ∈ dbGroup.contactGroups, r.contact = 1 ∧ r.group = g.id)) :=
  accessible_for_spec dbGroup 1 (by decide)

/-! ## Helper lemmas and claim about the group member list -/

theorem memberRow_some {db : DB} {g : Nat} {r : ContactGroupRow} {v : MemberView}
    (h : (if r.group == g then
            (db.contacts.find? (fun ct => ct.id == r.contact)).map
              (fun ct => mkMemberView db ct r)
          else none) = some v) :
    v.id = r.contact ∧ r.group = g ∧
      ∃ ct ∈ db.contacts, ct.id = r.contact ∧ v = mkMemberView db ct r := by
  by_cases hg : (r.group == g) = true
  · rw [if_pos hg] at h
    obtain ⟨ct, hfind, hv⟩ := Option.map_eq_some'.mp h
    have hb := List.find?_some hfind
    have hct : ct.id = r.contact := beq_iff_eq.mp hb
    subst hv
    exact ⟨hct, beq_iff_eq.mp hg, ct, List.mem_of_find?_eq_some hfind, hct, rfl⟩
  · rw [if_neg hg] at h
    exact absurd h (by simp)

theorem find?_eq_some_of_nodup {l : List ContactRow} {ct : ContactRow}
    (hids : (l.map ContactRow.id).Nodup) (hct : ct ∈ l) :
    l.find? (fun x => x.id == ct.id) = some ct := by
  induction l with
  | nil => cases hct
  | cons x xs ih =>
      rw [List.map_cons, List.nodup_cons] at hids
      rcases List.mem_cons.mp hct with h1 | h2
      · subst h1
        rw [List.find?_cons]
        simp
      · have hx : (x.id == ct.id) = false := by
          rw [beq_eq_false_iff_ne]
          intro hxeq
          apply hids.1
          rw [hxeq]
          exact List.mem_map_of_mem ContactRow.id h2
        rw [List.find?_cons]
        simp only [hx, Bool.false_eq_true, if_false]
        exact ih hids.2 h2

theorem mem_memberRows {db : DB} {g : Nat} {v : MemberView}
    (hids : (db.contacts.map ContactRow.id).Nodup) :
    v ∈ memberRows db g ↔
      ∃ r ∈ db.contactGroups, r.group = g ∧
        ∃ ct ∈ db.contacts, ct.id = r.contact ∧ v = mkMemberView db ct r := by
  rw [memberRows, List.mem_filterMap]
  constructor
  · rintro ⟨r, hr, hf⟩
    obtain ⟨hid, hgg, ct, hctmem, hctid, hv⟩ := memberRow_some hf
    exact ⟨r, hr, hgg, ct, hctmem, hctid, hv⟩
  · rintro ⟨r, hr, hgg, ct, hctmem, hctid, hv⟩
    refine ⟨r, hr, ?_⟩
    rw [if_pos (beq_iff_eq.mpr hgg)]
    rw [← hctid]
    rw [find?_eq_some_of_nodup hids hctmem]
    simp [hv]

theorem memberRowsAux_ids_nodup (db : DB) (g : Nat) :
    ∀ rows : List ContactGroupRow,
      (rows.map (fun r => (r.contact, r.group))).Nodup →
      ((rows.filterMap (fun r =>
          if r.group == g then
            (db.contacts.find? (fun ct => ct.id == r.contact)).map
              (fun ct => mkMemberView db ct r)
          else none)).map MemberView.id).Nodup := by
  intro rows h
  induction rows with
  | nil => simp
  | cons r rs ih =>
      rw [List.map_cons, List.nodup_cons] at h
      rw [List.filterMap_cons]
      cases hf : (if r.group == g then
          (db.contacts.find? (fun ct => ct.id == r.contact)).map
            (fun ct => mkMemberView db ct r)
        else none) with
      | none => exact ih h.2
      | some v =>
          rw [List.map_cons, List.nodup_cons]
          refine ⟨?_, ih h.2⟩
          intro hmem
          rcases List.mem_map.mp hmem with ⟨v2, hv2, hid⟩
          rcases List.mem_filterMap.mp hv2 with ⟨r2, hr2, hf2⟩
          obtain ⟨hid2, hg2, _⟩ := memberRow_some hf2
          obtain ⟨hid1, hg1, _⟩ := memberRow_some hf
          apply h.1
          refine List.mem_map.mpr ⟨r2, hr2, ?_⟩
          rw [← hid2, hid, hid1, hg2, hg1]

theorem memberRows_ids_nodup {db : DB} {g : Nat}
    (hpairs : cgPairsNodup db.contactGroups) :
    ((memberRows db g).map MemberView.id).Nodup :=
  memberRowsAux_ids_nodup db g db.contactGroups hpairs

/-- Claim C8: under the primary-key and unique_together constraints, the
member list of a group contains each member contact exactly once, in
ascending order of contact id, and every entry is exactly the member's
contact annotated with role, invited_by (the inviter) and joined_at from its
own ContactGroup row, with its phone numbers (each carrying the is_primary
flag of its association row) attached. -/
theorem get_contacts_spec (db : DB) (g : Nat)
    (hpairs : cgPairsNodup db.contactGroups)
    (hids : (db.contacts.map ContactRow.id).Nodup) :
    ((get_contacts db g).map MemberView.id).Nodup ∧
    List.Sorted (fun a b => a ≤ b) ((get_contacts db g).map MemberView.id) ∧
    ∀ v, v ∈ get_contacts db g ↔
      ∃ r ∈ db.contactGroups, r.group = g ∧
        ∃ ct ∈ db.contacts, ct.id = r.contact ∧ v = mkMemberView db ct r := by
  refine ⟨?_, ?_, ?_⟩
  · have hp := (List.perm_insertionSort memberLE (memberRows db g)).map MemberView.id
    have h1 : ((List.insertionSort memberLE (memberRows db g)).map MemberView.id).Nodup :=
      hp.nodup_iff.mpr (memberRows_ids_nodup hpairs)
    rw [get_contacts]
    exact List.Nodup.sublist ((List.dedup_sublist _).map MemberView.id) h1
  · have hs : List.Sorted memberLE (List.insertionSort memberLE (memberRows db g)) :=
      List.sorted_insertionSort memberLE (memberRows db g)
    have hs2 : List.Sorted memberLE (get_contacts db g) := by
      rw [get_contacts]
      exact List.Pairwise.sublist (List.dedup_sublist _) hs
    exact List.pairwise_map.mpr hs2
  · intro v
    rw [get_contacts, List.mem_dedup, List.mem_insertionSort]
    exact mem_memberRows hids

/-- Witness for claim C8 at the concrete group database: group 10 has the
members 1 (admin) and 2 (member), listed once each in ascending order. -/
theorem get_contacts_spec_witness :
    ((get_contacts dbGroup 10).map MemberView.id).Nodup ∧
    List.Sorted (fun a b => a ≤ b) ((get_contacts dbGroup 10).map MemberView.id) ∧
    ∀ v, v ∈ get_contacts dbGroup 10 ↔
      ∃ r ∈ dbGroup.contactGroups, r.group = 10 ∧
        ∃ ct ∈ dbGroup.contacts, ct.id = r.contact ∧ v = mkMemberView dbGroup ct r :=
  get_contacts_spec dbGroup 10 (by rw [cgPairsNodup]; decide) (by decide)

/-! ## Claim about permission gating of the group-member views -/

/-- Claim C3, evaluated on the code at the failing input: in group 10,
contact 2 (user 2) is a member but not an admin — IsGroupAdmin would deny it
— yet its PUT on member 1 of the group is executed: no view attaches any
permission class, so the role update succeeds (HTTP 200 with the admin
demoted to member) where the claim requires a 403.  The 404 half of the
claim does hold on the code: user 3, not a member of the group at all, gets
Not-Found on a GET of a member resource, because the member queryset is
restricted to requester-accessible groups. -/
theorem group_member_put_not_forbidden :
    isGroupMemberPerm dbGroup 10 2 = true ∧
    isGroupAdminPerm dbGroup 10 2 = false ∧
    groupMemberUpdate dbGroup 2 10 1 ⟨1, Role.member, 1⟩ =
      Except.ok { dbGroup with
        contactGroups := [⟨1, 10, Role.member, 1, 0⟩, ⟨2, 10, Role.member, 1, 5⟩] } ∧
    groupMemberRetrieve dbGroup 3 10 2 = Except.error ApiErr.notFound := by
  exact ⟨rfl, rfl, rfl, rfl⟩

end DjangoContact
